import Mathlib

/-!
Verification of the Clippy consciousness-representation engine against its
specification. The Python sources are shallowly embedded: machine floats are
modelled as rationals, tensors as shape-plus-data records, fallible code as
`Except`, and the stateful graph builder as explicit state passing. Functions
whose bodies are not part of the repository snapshot (only their callers are)
are modelled from the specification and say so in their doc comments.
-/

namespace Clippy

/-! ## Hash projection (ai-model.py, ActiveHashedInteractionNetwork.hash_function)

`hash_function` multiplies the input by a 32-column random matrix, binarises
by sign, folds each group of 8 bits into a base-256 digit with weights
[1, 2, 4, 8, 16, 32, 64, 128], and combines the four digits by repeated
`combined = (combined * 256 + digit) % hash_size`. The random matrix is drawn
by `torch.randn` inside the function body on every call; it is therefore an
input of the embedded function, not a stored parameter. -/

/-- Dot product of two rational vectors, `sum(u[i] * v[i])`. -/
def dotQ (u v : List ℚ) : ℚ :=
  (List.zipWith (fun a b => a * b) u v).sum

/-- The per-bit weights `power = [1, 2, 4, 8, 16, 32, 64, 128]`. -/
def bitWeights : List ℕ := [1, 2, 4, 8, 16, 32, 64, 128]

/-- Fold 8 binary values into an integer 0-255: `(segment * power).sum()`. -/
def bitsToDigit (bits : List Bool) : ℕ :=
  (List.zipWith (fun b w => if b then w else 0) bits bitWeights).sum

/-- Binarisation `projection > 0` of the projected features. -/
def signBits (proj : List ℚ) : List Bool :=
  proj.map (fun v => decide (0 < v))

/-- The random projection `x @ R` with `R` of shape (input_dim, 32); the
basis is passed as its list of 32 columns. -/
def projectFeatures (basisCols : List (List ℚ)) (x : List ℚ) : List ℚ :=
  basisCols.map (fun col => dotQ x col)

/-- The loop `for i in range(0, 32, 8)`: four base-256 digits, one per group
of 8 consecutive sign bits. -/
def hashDigits (bits : List Bool) : List ℕ :=
  [bitsToDigit (bits.take 8),
   bitsToDigit ((bits.drop 8).take 8),
   bitsToDigit ((bits.drop 16).take 8),
   bitsToDigit ((bits.drop 24).take 8)]

/-- `combined = indices[0]; for idx in indices[1:]: combined = (combined * 256 + idx) % hash_size`. -/
def hashCombine (digits : List ℕ) (hashSize : ℕ) : ℕ :=
  match digits with
  | [] => 0
  | d :: ds => ds.foldl (fun c i => (c * 256 + i) % hashSize) d

/-- One evaluation of `hash_function` for a single feature vector `x`, with
the freshly drawn random basis made explicit. -/
def hashFunction (basisCols : List (List ℚ)) (hashSize : ℕ) (x : List ℚ) : ℕ :=
  hashCombine (hashDigits (signBits (projectFeatures basisCols x))) hashSize

/-- The lookup `self.hash_embedding(hash_indices)` into a table of
`hash_size` rows. -/
def hashEmbeddingLookup (table : List (List ℚ)) (i : ℕ) : Option (List ℚ) :=
  table.get? i

/-- An all-positive one-column basis: every projected coordinate of `[1]` is 1. -/
def basisAllPos : List (List ℚ) := List.replicate 32 [(1 : ℚ)]

/-- An all-negative one-column basis: every projected coordinate of `[1]` is -1. -/
def basisAllNeg : List (List ℚ) := List.replicate 32 [(-1 : ℚ)]

/-! ## Tensors and the AHIN forward entry (ai-model.py, forward;
ai-algorithm-module, extract_consciousness_representation) -/

/-- A tensor, reduced to its shape and flattened data. -/
structure Tensor where
  shape : List ℕ
  data : List ℚ
  deriving DecidableEq

/-- The message of the ValueError Python raises when a 2-element shape is
unpacked into three names. -/
def unpackErrorMsg : String :=
  "ValueError: not enough values to unpack (expected 3)"

/-- The entry of `ActiveHashedInteractionNetwork.forward`: the statement
`batch_size, seq_len, _ = features.shape` succeeds exactly on 3-dimensional
tensors and raises ValueError otherwise. No caller in
`extract_consciousness_representation` gets past this unpack, because that
caller only ever builds 2-dimensional tensors; the body after the unpack is
therefore not reached from there. -/
def forwardUnpack (features : Tensor) : Except String (ℕ × ℕ × ℕ) :=
  match features.shape with
  | [b, s, d] => Except.ok (b, s, d)
  | _ => Except.error unpackErrorMsg

/-- JSON-like values: the attribute maps and persisted documents. -/
inductive Json where
  | null : Json
  | bool (b : Bool) : Json
  | num (q : ℚ) : Json
  | str (s : String) : Json
  | arr (elems : List Json) : Json
  | obj (fields : List (String × Json)) : Json

/-- A user data item, the Python dict passed in `user_data`. -/
def Item : Type := List (String × Json)

/-- The tensor `embedding.unsqueeze(0)` handed to the model for one item:
the 1-D row of the stacked `(n, d)` embedding tensor gains a leading
batch dimension, giving shape `(1, d)` - two dimensions, not three. -/
def itemTensor (e : List ℚ) : Tensor :=
  Tensor.mk [1, e.length] e

/-- One iteration of the loop `output, hash_codes = self.ahin_model(embedding.unsqueeze(0))`,
modelled to the point where `forward` unpacks the shape. -/
def perItemForward (e : List ℚ) : Except String (ℕ × ℕ × ℕ) :=
  forwardUnpack (itemTensor e)

/-- `extract_consciousness_representation`. Empty input returns
`np.zeros(self.unified_dim)`. Otherwise per-item embeddings (the missing
`_generate_embedding_from_data` is the parameter `embed`) are stacked and each
row is fed to the AHIN model. The code after the per-item calls (stacking the
outputs, mean aggregation, `F.normalize`) is abstracted as the parameter
`rest`, because no execution reaches it: every per-item call fails the
3-dimension unpack, whatever `rest` is, as proved below. -/
def extractConsciousnessRepresentation (rest : List (ℕ × ℕ × ℕ) → List ℚ)
    (embed : Item → List ℚ) (unifiedDim : ℕ) (userData : List Item) :
    Except String (List ℚ) :=
  if userData.isEmpty then
    Except.ok (List.replicate unifiedDim 0)
  else
    match (userData.map embed).mapM perItemForward with
    | Except.error e => Except.error e
    | Except.ok ts => Except.ok (rest ts)

/-- A sample one-item input used to exhibit the nonempty-input failure. -/
def sampleItem : Item := [("text", Json.str "note")]

/-- A sample embedding function standing in for `_generate_embedding_from_data`. -/
def sampleEmbed : Item → List ℚ := fun _ => [1, 0, 0, 0]

/-- A sample continuation for the unreachable tail of the extraction. -/
def sampleRest : List (ℕ × ℕ × ℕ) → List ℚ := fun _ => []

/-! ## Graph builder (ai-algorithm-module: generate_consciousness_graph,
_determine_data_type, _get_node_by_id, save_to_file, load_from_file)

The builder's node/edge record shapes and the methods `add_node`, `add_edge`
and `query_similar_nodes` are not in the repository snapshot (only their call
sites are); those are modelled from the specification, as their doc comments
say. -/

/-- Membership test `key in data_item` on a Python dict. -/
def hasKey (item : Item) (k : String) : Bool :=
  (item.lookup k).isSome

/-- `_determine_data_type`, with the source's branch order: the `text` and
`image` branches precede the both-keys check, so the `multimodal_data` branch
is unreachable. -/
def determineDataType (item : Item) : String :=
  if hasKey item "text" then "text_data"
  else if hasKey item "image" then "image_data"
  else if hasKey item "audio" then "audio_data"
  else if hasKey item "text" && hasKey item "image" then "multimodal_data"
  else "generic_data"

/-- A graph node, the shape of spec section 3: unique id, kind, attribute
map, embedding. Ids are modelled as the node's creation index, which is
unique within one graph-construction session. -/
structure GraphNode where
  id : ℕ
  kind : String
  attributes : Json
  embedding : List ℚ

/-- A graph edge, the shape of spec section 3. -/
structure GraphEdge where
  source : ℕ
  dest : ℕ
  kind : String
  weight : ℚ
  attributes : Json

/-- The builder's state: the `self.nodes` and `self.edges` lists. -/
structure Network where
  nodes : List GraphNode
  edges : List GraphEdge

/-- Modelled from the spec: `add_node` is absent from the snapshot (only its
call sites are). Per sections 3 and 4.7, it creates a node with a fresh
session-unique id (the creation index), the given attributes, kind and
embedding, appends it to `self.nodes` and returns the id. -/
def addNode (net : Network) (attrs : Json) (kind : String) (emb : List ℚ) :
    Network × ℕ :=
  let nid := net.nodes.length
  (Network.mk (net.nodes ++ [GraphNode.mk nid kind attrs emb]) net.edges, nid)

/-- Modelled from the spec: `add_edge` is absent from the snapshot. Per
section 3, it appends an edge with the given endpoints, kind, weight and
attributes to `self.edges`. -/
def addEdge (net : Network) (src dst : ℕ) (kind : String) (w : ℚ)
    (attrs : Json) : Network :=
  Network.mk net.nodes (net.edges ++ [GraphEdge.mk src dst kind w attrs])

/-- `_get_node_by_id`: first node with the given id, a not-found sentinel
otherwise. -/
def getNodeById (net : Network) (nid : ℕ) : Option GraphNode :=
  net.nodes.find? (fun n => n.id == nid)

/-- One entry of a similarity query result: the node, its insertion index in
`self.nodes`, and its similarity score against the query embedding. -/
structure ScoredNode where
  node : GraphNode
  idx : ℕ
  score : ℚ

/-- The ranking order of spec section 4.8: higher score first, ties broken by
earliest insertion order. -/
def simRel (a b : ScoredNode) : Prop :=
  b.score < a.score ∨ (a.score = b.score ∧ a.idx ≤ b.idx)

instance : DecidableRel simRel := fun a b =>
  inferInstanceAs (Decidable (b.score < a.score ∨ (a.score = b.score ∧ a.idx ≤ b.idx)))

instance : IsTotal ScoredNode simRel := by
  refine ⟨fun a b => ?_⟩
  rcases lt_trichotomy b.score a.score with h | h | h
  · exact Or.inl (Or.inl h)
  · rcases Nat.le_total a.idx b.idx with hle | hle
    · exact Or.inl (Or.inr ⟨h.symm, hle⟩)
    · exact Or.inr (Or.inr ⟨h, hle⟩)
  · exact Or.inr (Or.inl h)

instance : IsTrans ScoredNode simRel := by
  refine ⟨fun a b c hab hbc => ?_⟩
  rcases hab with hab | ⟨hab, hab2⟩ <;> rcases hbc with hbc | ⟨hbc, hbc2⟩
  · exact Or.inl (hbc.trans hab)
  · exact Or.inl (by rw [← hbc]; exact hab)
  · exact Or.inl (by rw [hab]; exact hbc)
  · exact Or.inr ⟨hab.trans hbc, hab2.trans hbc2⟩

/-- Score every current node against the query: cosine similarity in the
source, whose float values are rationals; the score function is the
parameter `score`. -/
def scoreNodes (score : List ℚ → ℚ) (nodes : List GraphNode) : List ScoredNode :=
  nodes.enum.map (fun p => ScoredNode.mk p.2 p.1 (score p.2.embedding))

/-- Modelled from the spec: `query_similar_nodes` is absent from the
snapshot. Per section 4.8, it scores the query embedding against every node
currently in the graph (`sim q` stands for the cosine-similarity scoring, a
rational-valued function since float cosines are rationals), sorts descending
by score with ties broken by earliest insertion order, and returns the first
`top_k` entries; no node is excluded. -/
def querySimilarNodes (sim : List ℚ → List ℚ → ℚ) (net : Network)
    (q : List ℚ) (topK : ℕ) : List ScoredNode :=
  (List.insertionSort simRel (scoreNodes (sim q) net.nodes)).take topK

/-- The `semantic_similarity` edge added for one query hit: weight and
attribute both carry the similarity score. -/
def semEdge (nid : ℕ) (sn : ScoredNode) : GraphEdge :=
  GraphEdge.mk nid sn.node.id "semantic_similarity" sn.score
    (Json.obj [("similarity_score", Json.num sn.score)])

/-- The loop `for sim_node in similar_nodes: if sim_node['id'] != node_id:
add_edge(...)` of `generate_consciousness_graph`. -/
def processSimilar (nid : ℕ) : Network → List ScoredNode → Network
  | net, [] => net
  | net, sn :: rest =>
    processSimilar nid
      (if sn.node.id ≠ nid then
        addEdge net nid sn.node.id "semantic_similarity" sn.score
          (Json.obj [("similarity_score", Json.num sn.score)])
      else net)
      rest

/-- One iteration of the per-item loop of `generate_consciousness_graph`:
classify the item, create its node, add the decayed core link of weight
`1.0 / (i + 1)`, query the top-3 similar nodes with the new node's stored
embedding, and add a `semantic_similarity` edge per hit that is not the node
itself. -/
def buildStep (sim : List ℚ → List ℚ → ℚ) (itemEmbed : Item → List ℚ)
    (coreId i : ℕ) (net : Network) (item : Item) : Network :=
  let dataType := determineDataType item
  let step := addNode net (Json.obj item) dataType (itemEmbed item)
  let net2 := addEdge step.1 coreId step.2 "consciousness_connection"
    (1 / ((i : ℚ) + 1)) (Json.obj [])
  let nodeEmbedding :=
    match getNodeById net2 step.2 with
    | some n => n.embedding
    | none => []
  let sims := querySimilarNodes sim net2 nodeEmbedding 3
  processSimilar step.2 net2 sims

/-- The per-item loop of `generate_consciousness_graph`, item by item in
input order, with the counter `i` driving the decay weight. -/
def processItems (sim : List ℚ → List ℚ → ℚ) (itemEmbed : Item → List ℚ)
    (coreId : ℕ) : ℕ → Network → List Item → Network
  | _, net, [] => net
  | i, net, item :: rest =>
    processItems sim itemEmbed coreId (i + 1)
      (buildStep sim itemEmbed coreId i net item) rest

/-- Attributes of the core node: `{'type': 'core_consciousness', 'timestamp': ...}`;
the wall-clock timestamp is the parameter `ts`. -/
def coreAttrs (ts : String) : Json :=
  Json.obj [("type", Json.str "core_consciousness"), ("timestamp", Json.str ts)]

/-- The part of `generate_consciousness_graph` after the extraction call
returned a consciousness vector `cv`: on the cleared state, create the core
`consciousness` node carrying `cv`, then process the items in input order.
In the program this code runs only when the extraction call returns, which
happens only for the empty input; it is embedded in full so the builder's
intended loop can be described. -/
def buildGraphFromVector (sim : List ℚ → List ℚ → ℚ) (itemEmbed : Item → List ℚ)
    (cv : List ℚ) (ts : String) (userData : List Item) : Network × List ℚ :=
  let cleared := Network.mk [] []
  let core := addNode cleared (coreAttrs ts) "consciousness" cv
  (processItems sim itemEmbed core.2 0 core.1 userData, cv)

/-- `generate_consciousness_graph`: clear `self.nodes`/`self.edges` (the
prior state `_net0` is discarded, whatever happens next), call
`self.extract_consciousness_representation(user_data)`, and - when that call
returns instead of raising - create the core node and process the items. The
raise propagates: for nonempty input the method raises inside the extraction
call, before any node or edge is created, and returns no graph. In the
source the reset precedes the extraction call; the model threads no state
into the error result, so the order is observable only through the absent
result. -/
def generateConsciousnessGraph (rest : List (ℕ × ℕ × ℕ) → List ℚ)
    (embed : Item → List ℚ) (sim : List ℚ → List ℚ → ℚ) (unifiedDim : ℕ)
    (ts : String) (_net0 : Network) (userData : List Item) :
    Except String (Network × List ℚ) :=
  match extractConsciousnessRepresentation rest embed unifiedDim userData with
  | Except.error e => Except.error e
  | Except.ok cv => Except.ok (buildGraphFromVector sim embed cv ts userData)

/-! ## Persistence (save_to_file / load_from_file) -/

/-- Modelled from the spec: the JSON document shape of one node (section 3;
`add_node`, which fixes the dict keys, is absent from the snapshot). -/
def nodeToJson (n : GraphNode) : Json :=
  Json.obj [("id", Json.num (n.id : ℚ)), ("type", Json.str n.kind),
    ("attributes", n.attributes),
    ("embedding", Json.arr (n.embedding.map Json.num))]

/-- Modelled from the spec: the JSON document shape of one edge (section 3). -/
def edgeToJson (e : GraphEdge) : Json :=
  Json.obj [("source", Json.num (e.source : ℚ)), ("target", Json.num (e.dest : ℚ)),
    ("type", Json.str e.kind), ("weight", Json.num e.weight),
    ("attributes", e.attributes)]

/-- Read back a number. -/
def jsonToNum : Json → Option ℚ
  | Json.num q => some q
  | _ => none

/-- Read back a string. -/
def jsonToStr : Json → Option String
  | Json.str s => some s
  | _ => none

/-- Read back a natural-number id. -/
def jsonToNat (j : Json) : Option ℕ :=
  match jsonToNum j with
  | some q => if q.den == 1 && decide (0 ≤ q.num) then some q.num.toNat else none
  | none => none

/-- Read back a list of decoded elements. -/
def jsonList (decode : Json → Option α) : Json → Option (List α)
  | Json.arr xs => xs.mapM decode
  | _ => none

/-- Decode one node of the persisted document. -/
def nodeFromJson (j : Json) : Option GraphNode :=
  match j with
  | Json.obj fs =>
    match fs.lookup "id", fs.lookup "type", fs.lookup "attributes",
        fs.lookup "embedding" with
    | some idj, some kj, some aj, some ej =>
      match jsonToNat idj, jsonToStr kj, jsonList jsonToNum ej with
      | some nid, some kind, some emb => some (GraphNode.mk nid kind aj emb)
      | _, _, _ => none
    | _, _, _, _ => none
  | _ => none

/-- Decode one edge of the persisted document. -/
def edgeFromJson (j : Json) : Option GraphEdge :=
  match j with
  | Json.obj fs =>
    match fs.lookup "source", fs.lookup "target", fs.lookup "type",
        fs.lookup "weight", fs.lookup "attributes" with
    | some sj, some dj, some kj, some wj, some aj =>
      match jsonToNat sj, jsonToNat dj, jsonToStr kj, jsonToNum wj with
      | some src, some dst, some kind, some w =>
        some (GraphEdge.mk src dst kind w aj)
      | _, _, _, _ => none
    | _, _, _, _, _ => none
  | _ => none

/-- `save_to_file`: `json.dump({'nodes': self.nodes, 'edges': self.edges})`,
modelled as the JSON document written. -/
def saveToFile (net : Network) : Json :=
  Json.obj [("nodes", Json.arr (net.nodes.map nodeToJson)),
    ("edges", Json.arr (net.edges.map edgeToJson))]

/-- `load_from_file`: read the document, take `data.get('nodes', [])` and
`data.get('edges', [])`, and replace the builder's state with them; `net0`,
the state being replaced, does not influence the result. Decoding failures
of a malformed document yield `none`. -/
def loadFromFile (_net0 : Network) (doc : Json) : Option Network :=
  match doc with
  | Json.obj fs =>
    match jsonList nodeFromJson ((fs.lookup "nodes").getD (Json.arr [])),
        jsonList edgeFromJson ((fs.lookup "edges").getD (Json.arr [])) with
    | some ns, some es => some (Network.mk ns es)
    | _, _ => none
  | _ => none

/-! ## Concrete instances used by closed statements -/

/-- The constant similarity score 1: the cosine of identical nonzero
embeddings, which float cosine returns exactly. -/
def simOne : List ℚ → List ℚ → ℚ := fun _ _ => 1

/-- An extractor giving every item the same one-dimensional embedding. -/
def embedOne : Item → List ℚ := fun _ => [1]

/-- An empty builder state. -/
def emptyNet : Network := Network.mk [] []

/-- The item nodes a build session creates, starting at id `m`: one node per
item in input order, kinds from `_determine_data_type`, attributes the item
itself, embeddings from the extractor. -/
def itemNodes (itemEmbed : Item → List ℚ) : ℕ → List Item → List GraphNode
  | _, [] => []
  | m, it :: rest =>
    GraphNode.mk m (determineDataType it) (Json.obj it) (itemEmbed it) ::
      itemNodes itemEmbed (m + 1) rest

/-- The `consciousness_connection` edges a build session creates: destination
ids from `m` up, weights `1 / (i + 1)` from counter `i` up. -/
def ccEdgeList (coreId : ℕ) : ℕ → ℕ → List Item → List GraphEdge
  | _, _, [] => []
  | m, i, _ :: rest =>
    GraphEdge.mk coreId m "consciousness_connection" (1 / ((i : ℚ) + 1)) (Json.obj []) ::
      ccEdgeList coreId (m + 1) (i + 1) rest

/-! ## Theorems -/

/-- The digit-combining loop ends below `hash_size` whenever it runs at least
once, because every iteration reduces modulo `hash_size`. -/
theorem foldl_mod_lt (h : ℕ) (hpos : 0 < h) (l : List ℕ) (c : ℕ) (hne : l ≠ []) :
    l.foldl (fun acc i => (acc * 256 + i) % h) c < h := by
  induction l generalizing c with
  | nil => exact absurd rfl hne
  | cons a t ih =>
    cases t with
    | nil => exact Nat.mod_lt _ hpos
    | cons b t2 =>
      rw [List.foldl_cons]
      exact ih _ (List.cons_ne_nil _ _)

/-- C10: for every input feature vector and every configured `hash_size ≥ 1`,
the index `hash_function` produces lies in `[0, hash_size)` - the folding loop
reduces modulo `hash_size` after each combining step - so the hash-embedding
lookup in `forward`, over a table of `hash_size` rows, never receives an
out-of-range index. -/
theorem hash_index_in_range (basisCols : List (List ℚ)) (x : List ℚ) (h : ℕ)
    (table : List (List ℚ)) (hpos : 1 ≤ h) (htab : table.length = h) :
    hashFunction basisCols h x < h ∧
    (hashEmbeddingLookup table (hashFunction basisCols h x)).isSome := by
  have hlt : hashFunction basisCols h x < h := by
    have bits := signBits (projectFeatures basisCols x)
    exact foldl_mod_lt h hpos
      [bitsToDigit (((signBits (projectFeatures basisCols x)).drop 8).take 8),
       bitsToDigit (((signBits (projectFeatures basisCols x)).drop 16).take 8),
       bitsToDigit (((signBits (projectFeatures basisCols x)).drop 24).take 8)]
      (bitsToDigit ((signBits (projectFeatures basisCols x)).take 8))
      (List.cons_ne_nil _ _)
  refine ⟨hlt, ?_⟩
  rw [hashEmbeddingLookup]
  simp [List.get?_eq_getElem?, List.getElem?_eq_some_iff, htab, hlt]

/-- Witness for `hash_index_in_range` at a concrete basis, input, size 4 and
table of 4 rows. -/
theorem hash_index_in_range_witness :
    hashFunction basisAllPos 4 [1] < 4 ∧
    (hashEmbeddingLookup (List.replicate 4 []) (hashFunction basisAllPos 4 [1])).isSome :=
  hash_index_in_range basisAllPos [1] 4 (List.replicate 4 []) (by norm_num) (by simp)

set_option maxRecDepth 8000 in
/-- C1: the determinism contract fails on the code. `hash_function` draws its
random projection basis afresh (torch.randn) on every call, and the bucket
depends on that draw: for the fixed input `[1]` and `hash_size = 1024`, an
all-positive draw gives bucket 1023 while an all-negative draw gives bucket 0,
so identical input does not always map to the identical hash bucket across
calls of one instance. -/
theorem hash_bucket_depends_on_redrawn_basis :
    hashFunction basisAllPos 1024 [1] = 1023 ∧
    hashFunction basisAllNeg 1024 [1] = 0 ∧
    hashFunction basisAllPos 1024 [1] ≠ hashFunction basisAllNeg 1024 [1] := by
  refine ⟨by decide!, by decide!, by decide!⟩

/-- C2: `_determine_data_type` classifies an item holding both `text` and
`image` keys as `text_data`, not `multimodal_data`: the `text` branch runs
first and the both-keys branch is unreachable, so no item at all is ever
classified `multimodal_data`. -/
theorem determine_data_type_text_shadows_multimodal :
    determineDataType [("text", Json.str "t"), ("image", Json.str "i")] = "text_data" ∧
    ∀ item : Item, determineDataType item ≠ "multimodal_data" := by
  constructor
  · rfl
  · intro item
    unfold determineDataType
    cases htext : hasKey item "text" <;> cases himg : hasKey item "image" <;>
      cases haud : hasKey item "audio" <;> simp [htext, himg, haud]

/-- C3: the normalization contract fails on the code. At the concrete
nonempty input `[{'text': 'note'}]` the extraction raises the shape-unpack
ValueError instead of returning a unit vector; the empty-input half of the
contract does hold (the all-zero vector of the configured dimension, here 4). -/
theorem extract_representation_at_sample :
    extractConsciousnessRepresentation sampleRest sampleEmbed 4 [sampleItem] =
      Except.error unpackErrorMsg ∧
    extractConsciousnessRepresentation sampleRest sampleEmbed 4 [] =
      Except.ok [0, 0, 0, 0] := by
  exact ⟨rfl, rfl⟩

/-- C4: for every nonempty input list - whatever the per-item embeddings and
whatever the unreachable tail of the computation would do - the extraction
returns the shape-unpack error: every per-item call hands the model a 2-D
tensor, one dimension fewer than the three `forward` unpacks. -/
theorem extract_raises_on_nonempty (rest : List (ℕ × ℕ × ℕ) → List ℚ)
    (embed : Item → List ℚ) (unifiedDim : ℕ) (userData : List Item)
    (hne : userData ≠ []) :
    extractConsciousnessRepresentation rest embed unifiedDim userData =
      Except.error unpackErrorMsg ∧
    ∀ item ∈ userData, (itemTensor (embed item)).shape.length = 3 - 1 := by
  obtain ⟨x, xs, rfl⟩ := List.exists_cons_of_ne_nil hne
  exact ⟨rfl, fun item _ => rfl⟩

/-- Witness for `extract_raises_on_nonempty` at a concrete one-item input. -/
theorem extract_raises_on_nonempty_witness :
    extractConsciousnessRepresentation sampleRest sampleEmbed 128 [sampleItem] =
      Except.error unpackErrorMsg ∧
    ∀ item ∈ [sampleItem], (itemTensor (sampleEmbed item)).shape.length = 3 - 1 :=
  extract_raises_on_nonempty sampleRest sampleEmbed 128 [sampleItem]
    (List.cons_ne_nil _ _)

/-- The similarity loop only appends edges: the non-self query hits become
`semantic_similarity` edges, in result order, and the nodes are untouched. -/
theorem processSimilar_eq (nid : ℕ) : ∀ (sims : List ScoredNode) (net : Network),
    processSimilar nid net sims =
      Network.mk net.nodes
        (net.edges ++ (sims.filter (fun sn => decide (sn.node.id ≠ nid))).map (semEdge nid)) := by
  intro sims
  induction sims with
  | nil => intro net; simp [processSimilar]
  | cons sn rest ih =>
    intro net
    by_cases h : sn.node.id = nid
    · simp [processSimilar, h, ih]
    · simp [processSimilar, h, ih, addEdge, semEdge, List.filter_cons]

/-- Semantic-similarity edges never pass the core-link filter. -/
theorem filter_cc_semEdges (nid : ℕ) : ∀ (l : List ScoredNode),
    ((l.map (semEdge nid)).filter (fun e => e.kind == "consciousness_connection")) = [] := by
  intro l
  induction l with
  | nil => rfl
  | cons sn rest ih =>
    simp only [List.map_cons, List.filter_cons]
    rw [if_neg, ih]
    simp [semEdge]

/-- One build step appends exactly the item's node, with the next free id. -/
theorem buildStep_nodes (sim : List ℚ → List ℚ → ℚ) (ie : Item → List ℚ)
    (c i : ℕ) (net : Network) (it : Item) :
    (buildStep sim ie c i net it).nodes = net.nodes ++
      [GraphNode.mk net.nodes.length (determineDataType it) (Json.obj it) (ie it)] := by
  simp [buildStep, processSimilar_eq, addEdge, addNode]

/-- Through the core-link filter, one build step appends exactly its one
`consciousness_connection` edge. -/
theorem buildStep_cc_filter (sim : List ℚ → List ℚ → ℚ) (ie : Item → List ℚ)
    (c i : ℕ) (net : Network) (it : Item) :
    (buildStep sim ie c i net it).edges.filter
        (fun e => e.kind == "consciousness_connection") =
      net.edges.filter (fun e => e.kind == "consciousness_connection") ++
        [GraphEdge.mk c net.nodes.length "consciousness_connection"
          (1 / ((i : ℚ) + 1)) (Json.obj [])] := by
  simp [buildStep, processSimilar_eq, addEdge, addNode, List.filter_append,
    List.filter_cons, filter_cc_semEdges]

/-- Each session creates one node per item, in input order, with consecutive
ids continuing the current node list. -/
theorem processItems_nodes (sim : List ℚ → List ℚ → ℚ) (ie : Item → List ℚ)
    (c : ℕ) : ∀ (items : List Item) (i : ℕ) (net : Network),
    (processItems sim ie c i net items).nodes =
      net.nodes ++ itemNodes ie net.nodes.length items := by
  intro items
  induction items with
  | nil => intro i net; simp [processItems, itemNodes]
  | cons it rest ih =>
    intro i net
    rw [processItems, ih, buildStep_nodes]
    simp [itemNodes]

/-- One node per item. -/
theorem itemNodes_length (ie : Item → List ℚ) :
    ∀ (l : List Item) (m : ℕ), (itemNodes ie m l).length = l.length := by
  intro l
  induction l with
  | nil => intro m; rfl
  | cons it rest ih => intro m; simp [itemNodes, ih]

/-- `_determine_data_type` never yields the core kind. -/
theorem determineDataType_ne_consciousness (it : Item) :
    determineDataType it ≠ "consciousness" := by
  unfold determineDataType
  split_ifs <;> decide

/-- No item node carries the core kind. -/
theorem itemNodes_filter_consciousness (ie : Item → List ℚ) :
    ∀ (l : List Item) (m : ℕ),
    (itemNodes ie m l).filter (fun n => n.kind == "consciousness") = [] := by
  intro l
  induction l with
  | nil => intro m; rfl
  | cons it rest ih =>
    intro m
    simp only [itemNodes, List.filter_cons]
    rw [if_neg, ih]
    simp [determineDataType_ne_consciousness it]

/-- The nodes the builder's item loop would produce from a vector: the core
node of id 0 first, then the item nodes with ids 1, 2, ... in input order.
In the program this loop runs only for the empty input. -/
theorem buildGraph_nodes (sim : List ℚ → List ℚ → ℚ) (ie : Item → List ℚ)
    (cv : List ℚ) (ts : String) (ud : List Item) :
    (buildGraphFromVector sim ie cv ts ud).1.nodes =
      GraphNode.mk 0 "consciousness" (coreAttrs ts) cv :: itemNodes ie 1 ud := by
  unfold buildGraphFromVector
  rw [processItems_nodes]
  simp [addNode]

/-- Structure of the loop's output: `n + 1` nodes for `n` items, exactly one
`consciousness`-kind node, created first. -/
theorem buildGraph_node_structure (sim : List ℚ → List ℚ → ℚ)
    (ie : Item → List ℚ) (cv : List ℚ) (ts : String) (ud : List Item) :
    (buildGraphFromVector sim ie cv ts ud).1.nodes.length = ud.length + 1 ∧
    ((buildGraphFromVector sim ie cv ts ud).1.nodes.filter
      (fun n => n.kind == "consciousness")).length = 1 ∧
    ((buildGraphFromVector sim ie cv ts ud).1.nodes.head?).map
      (fun n => n.kind) = some "consciousness" := by
  refine ⟨?_, ?_, ?_⟩
  · rw [buildGraph_nodes]
    simp [itemNodes_length]
  · rw [buildGraph_nodes]
    simp [List.filter_cons, itemNodes_filter_consciousness]
  · rw [buildGraph_nodes]
    rfl

/-- The `consciousness_connection` edges of a session: one per item in input
order, destinations and weights advancing with the item counter. -/
theorem processItems_cc (sim : List ℚ → List ℚ → ℚ) (ie : Item → List ℚ)
    (c : ℕ) : ∀ (items : List Item) (i : ℕ) (net : Network),
    (processItems sim ie c i net items).edges.filter
        (fun e => e.kind == "consciousness_connection")
      = net.edges.filter (fun e => e.kind == "consciousness_connection") ++
        ccEdgeList c net.nodes.length i items := by
  intro items
  induction items with
  | nil => intro i net; simp [processItems, ccEdgeList]
  | cons it rest ih =>
    intro i net
    rw [processItems, ih, buildStep_cc_filter, buildStep_nodes]
    simp [ccEdgeList]

/-- Closed form of `ccEdgeList` over `List.range`. -/
theorem ccEdgeList_eq_range (c : ℕ) : ∀ (l : List Item) (m i : ℕ),
    ccEdgeList c m i l = (List.range l.length).map (fun k =>
      GraphEdge.mk c (m + k) "consciousness_connection"
        (1 / ((i : ℚ) + (k : ℚ) + 1)) (Json.obj [])) := by
  intro l
  induction l with
  | nil => intro m i; rfl
  | cons it rest ih =>
    intro m i
    simp only [ccEdgeList, List.length_cons, List.range_succ_eq_map,
      List.map_cons, List.map_map]
    refine List.cons_eq_cons.mpr ⟨by simp, ?_⟩
    rw [ih (m + 1) (i + 1)]
    refine List.map_congr_left (fun k hk => ?_)
    simp only [Function.comp_apply]
    congr 1
    · omega
    · push_cast
      ring

/-- The core links the builder's item loop would produce from a vector:
exactly one `consciousness_connection` edge per item, in input order, core
(id 0) to item node (id `i + 1`), weight `1 / (i + 1)`. In the program this
loop runs only for the empty input, where the list is empty. -/
theorem buildGraph_core_links (sim : List ℚ → List ℚ → ℚ) (ie : Item → List ℚ)
    (cv : List ℚ) (ts : String) (ud : List Item) :
    (buildGraphFromVector sim ie cv ts ud).1.edges.filter
        (fun e => e.kind == "consciousness_connection")
      = (List.range ud.length).map (fun i =>
          GraphEdge.mk 0 (i + 1) "consciousness_connection"
            (1 / ((i : ℚ) + 1)) (Json.obj [])) := by
  unfold buildGraphFromVector
  rw [processItems_cc, ccEdgeList_eq_range]
  simp only [addNode, List.length_nil, List.nil_append, List.length_cons,
    List.filter_nil, Nat.cast_zero, zero_add]
  refine List.map_congr_left (fun k hk => ?_)
  congr 1
  omega

/-- Counting a node property through the scoring wrapper. -/
theorem countP_scoreNodes (p : GraphNode → Bool) (f : List ℚ → ℚ)
    (nodes : List GraphNode) :
    (scoreNodes f nodes).countP (fun sn => p sn.node) = nodes.countP p := by
  rw [scoreNodes, List.countP_map]
  have h1 : ((fun sn => p sn.node) ∘
      (fun pr : ℕ × GraphNode => ScoredNode.mk pr.2 pr.1 (f pr.2.embedding))) =
      fun pr : ℕ × GraphNode => p pr.2 := rfl
  rw [h1]
  have h2 : (fun pr : ℕ × GraphNode => p pr.2) = (p ∘ Prod.snd) := rfl
  rw [h2, ← List.countP_map, List.enum_map_snd]

/-- The heart of the similarity-edge bound: over a graph of `m + 1` nodes
with ids `0..m`, the query hits that survive the self-exclusion filter number
at most `min 3 m` - when all nodes fit in the top 3 the one self-match is
dropped, and otherwise the result is capped at 3 with `m ≥ 3`. -/
theorem query_hits_bound (sim : List ℚ → List ℚ → ℚ) (q : List ℚ)
    (net2 : Network) (m : ℕ) (hlen : net2.nodes.length = m + 1)
    (hids : net2.nodes.map (fun n => n.id) = List.range (m + 1)) :
    ((querySimilarNodes sim net2 q 3).filter
      (fun sn => decide (sn.node.id ≠ m))).length ≤ min 3 m := by
  have hall : (scoreNodes (sim q) net2.nodes).length = m + 1 := by
    simp [scoreNodes, hlen]
  have hsortlen :
      (List.insertionSort simRel (scoreNodes (sim q) net2.nodes)).length = m + 1 := by
    rw [(List.perm_insertionSort simRel _).length_eq, hall]
  by_cases hc : m + 1 ≤ 3
  · have htake : querySimilarNodes sim net2 q 3 =
        List.insertionSort simRel (scoreNodes (sim q) net2.nodes) := by
      rw [querySimilarNodes]
      exact List.take_of_length_le (by omega)
    rw [htake, ← List.countP_eq_length_filter,
      (List.perm_insertionSort simRel _).countP_eq,
      countP_scoreNodes (fun n => decide (n.id ≠ m)) (sim q) net2.nodes]
    have hcnt : net2.nodes.countP (fun n => decide (n.id ≠ m)) =
        (List.range (m + 1)).countP (fun x => decide (x ≠ m)) := by
      rw [← hids, List.countP_map]
      rfl
    rw [hcnt, List.range_succ, List.countP_append]
    have h1 : (List.range m).countP (fun x => decide (x ≠ m)) = m := by
      rw [List.countP_eq_length.mpr ?_, List.length_range]
      intro a ha
      simpa using Nat.ne_of_lt (List.mem_range.mp ha)
    have h2 : ([m].countP (fun x => decide (x ≠ m))) = 0 := by simp
    rw [h1, h2]
    omega
  · calc ((querySimilarNodes sim net2 q 3).filter
          (fun sn => decide (sn.node.id ≠ m))).length
        ≤ (querySimilarNodes sim net2 q 3).length := List.length_filter_le _ _
      _ = 3 := by rw [querySimilarNodes, List.length_take, hsortlen]; omega
      _ ≤ min 3 m := by omega

/-- One build step appends its core link and at most `min 3 m` semantic
edges, all of which originate at the new node's id `m`. -/
theorem buildStep_sem_bound (sim : List ℚ → List ℚ → ℚ) (ie : Item → List ℚ)
    (c i : ℕ) (net : Network) (it : Item)
    (hids : net.nodes.map (fun n => n.id) = List.range net.nodes.length) :
    ∃ block : List GraphEdge,
      (buildStep sim ie c i net it).edges = net.edges ++ block ∧
      (∀ e ∈ block, e.kind = "semantic_similarity" → e.source = net.nodes.length) ∧
      ((block.filter (fun e => e.kind == "semantic_similarity" &&
        e.source == net.nodes.length)).length ≤ min 3 net.nodes.length) := by
  simp only [buildStep, processSimilar_eq, addEdge, addNode]
  refine ⟨_, List.append_assoc _ _ _, ?_, ?_⟩
  · intro e he hk
    rcases List.mem_append.mp he with h | h
    · rw [List.mem_singleton.mp h] at hk
      simp at hk
    · obtain ⟨sn, hsn, rfl⟩ := List.mem_map.mp h
      rfl
  · rw [List.filter_append]
    have h1 : List.filter
        (fun e => e.kind == "semantic_similarity" && e.source == net.nodes.length)
        [GraphEdge.mk c net.nodes.length "consciousness_connection"
          (1 / ((i : ℚ) + 1)) (Json.obj [])] = [] := by simp
    rw [h1, List.nil_append, List.filter_eq_self.mpr ?_, List.length_map]
    · exact query_hits_bound sim _ _ net.nodes.length (by simp)
        (by simp [hids, List.range_succ])
    · intro e he
      obtain ⟨sn, hsn, rfl⟩ := List.mem_map.mp he
      simp [semEdge]

/-- The edges a session appends: every semantic edge originates at a node of
the session (id at least the id of the first node created), and for every
source id `s`, at most `min 3 s` semantic edges originate there. -/
theorem processItems_sem_bound (sim : List ℚ → List ℚ → ℚ) (ie : Item → List ℚ)
    (c : ℕ) : ∀ (items : List Item) (i : ℕ) (net : Network),
    net.nodes.map (fun n => n.id) = List.range net.nodes.length →
    ∃ suffix : List GraphEdge,
      (processItems sim ie c i net items).edges = net.edges ++ suffix ∧
      (∀ e ∈ suffix, e.kind = "semantic_similarity" → net.nodes.length ≤ e.source) ∧
      (∀ s : ℕ, ((suffix.filter (fun e => e.kind == "semantic_similarity" &&
        e.source == s)).length ≤ min 3 s)) := by
  intro items
  induction items with
  | nil =>
    intro i net hids
    exact ⟨[], by simp [processItems], by simp, by simp⟩
  | cons it rest ih =>
    intro i net hids
    obtain ⟨block, hb1, hb2, hb3⟩ := buildStep_sem_bound sim ie c i net it hids
    have hids2 : (buildStep sim ie c i net it).nodes.map (fun n => n.id) =
        List.range (buildStep sim ie c i net it).nodes.length := by
      rw [buildStep_nodes]
      simp [hids, List.range_succ]
    have hlen2 : (buildStep sim ie c i net it).nodes.length = net.nodes.length + 1 := by
      rw [buildStep_nodes]
      simp
    obtain ⟨suffix', hs1, hs2, hs3⟩ := ih (i + 1) (buildStep sim ie c i net it) hids2
    refine ⟨block ++ suffix', ?_, ?_, ?_⟩
    · rw [processItems, hs1, hb1, List.append_assoc]
    · intro e he hk
      rcases List.mem_append.mp he with h | h
      · exact le_of_eq (hb2 e h hk).symm
      · have := hs2 e h hk
        omega
    · intro s
      rw [List.filter_append, List.length_append]
      by_cases hsm : s = net.nodes.length
      · subst hsm
        have h0 : suffix'.filter (fun e => e.kind == "semantic_similarity" &&
            e.source == net.nodes.length) = [] := by
          rw [List.filter_eq_nil_iff]
          intro e he hpe
          have hk : e.kind = "semantic_similarity" :=
            beq_iff_eq.mp ((Bool.and_eq_true _ _).mp hpe).1
          have hsrc : e.source = net.nodes.length :=
            beq_iff_eq.mp ((Bool.and_eq_true _ _).mp hpe).2
          have := hs2 e he hk
          rw [hlen2] at this
          omega
        rw [h0]
        simpa using hb3
      · have h0 : block.filter (fun e => e.kind == "semantic_similarity" &&
            e.source == s) = [] := by
          rw [List.filter_eq_nil_iff]
          intro e he hpe
          have hk : e.kind = "semantic_similarity" :=
            beq_iff_eq.mp ((Bool.and_eq_true _ _).mp hpe).1
          have hsrc : e.source = s :=
            beq_iff_eq.mp ((Bool.and_eq_true _ _).mp hpe).2
          exact hsm (hsrc ▸ hb2 e he hk)
        rw [h0]
        simpa using hs3 s

/-- In the loop's output the number of `semantic_similarity` edges
originating at item `j`'s node (id `j + 1`) is at most `min(top_k, j + 1)`
with `top_k = 3` - the candidates are the core node and the `j` earlier item
nodes, plus the self-match that is filtered out only when it survives the
top-k cut. In the program this loop runs only for the empty input. -/
theorem buildGraph_semantic_bound (sim : List ℚ → List ℚ → ℚ)
    (ie : Item → List ℚ) (cv : List ℚ) (ts : String) (ud : List Item) (j : ℕ) :
    ((buildGraphFromVector sim ie cv ts ud).1.edges.filter
      (fun e => e.kind == "semantic_similarity" && e.source == j + 1)).length ≤
      min 3 (j + 1) := by
  obtain ⟨suffix, h1, h2, h3⟩ := processItems_sem_bound sim ie 0 ud 0
    (Network.mk [GraphNode.mk 0 "consciousness" (coreAttrs ts) cv] [])
    (by simp [List.range_succ])
  have hedges : (buildGraphFromVector sim ie cv ts ud).1.edges = suffix := by
    show (processItems sim ie 0 0
      (Network.mk [GraphNode.mk 0 "consciousness" (coreAttrs ts) cv] []) ud).edges = suffix
    simpa using h1
  rw [hedges]
  exact h3 (j + 1)

set_option maxRecDepth 8000 in
/-- The `min(top_k, j + 1)` bound on the loop is tight where a
`min(top_k, j)` bound would already fail: run on a single item, the item
node (id 1, item index 0) originates one semantic edge - the query returns
the core node and the item itself, and only the self-match is filtered. -/
theorem buildGraph_first_item_semantic_edge :
    ¬ (((buildGraphFromVector simOne embedOne [1] "t"
        ([[]] : List Item)).1.edges.filter
      (fun e => e.kind == "semantic_similarity" && e.source == 0 + 1)).length ≤
      min 3 0) := by
  decide!

/-- C5: the claimed per-item core-link layout is never realized.
`generate_consciousness_graph` on a nonempty input raises the shape-unpack
ValueError inside its extraction call, before any edge is created, and
returns no graph; only the empty input returns a graph, and its
`consciousness_connection` edge list is empty - the `n = 0` instance of the
claim, with no weighted edge ever present. -/
theorem core_links_never_built :
    generateConsciousnessGraph sampleRest sampleEmbed simOne 4 "t" emptyNet
      [sampleItem] = Except.error unpackErrorMsg ∧
    (generateConsciousnessGraph sampleRest sampleEmbed simOne 4 "t" emptyNet
      []).toOption.map
        (fun g => g.1.edges.filter (fun e => e.kind == "consciousness_connection")) =
      some [] :=
  ⟨rfl, rfl⟩

/-- C6: the claimed `n + 1`-node graph is never returned for `n ≥ 1`.
`generate_consciousness_graph` on a nonempty input raises inside its
extraction call before the core node is created; the empty input does return
the core-only graph of `0 + 1` nodes, and the result never depends on the
state the builder held before the call (the reset precedes everything). -/
theorem nodes_never_built :
    generateConsciousnessGraph sampleRest sampleEmbed simOne 4 "t" emptyNet
      [sampleItem, sampleItem] = Except.error unpackErrorMsg ∧
    (generateConsciousnessGraph sampleRest sampleEmbed simOne 4 "t" emptyNet
      []).toOption.map (fun g => g.1.nodes.length) = some (0 + 1) ∧
    ∀ (net0 net0' : Network) (ud : List Item),
      generateConsciousnessGraph sampleRest sampleEmbed simOne 4 "t" net0 ud =
        generateConsciousnessGraph sampleRest sampleEmbed simOne 4 "t" net0' ud :=
  ⟨rfl, rfl, fun _ _ _ => rfl⟩

/-- C7: no returned graph ever contains an item node, so the claimed
similarity-edge bound concerns graphs the program cannot produce.
`generate_consciousness_graph` on a nonempty input raises inside its
extraction call before the per-item loop runs; the only returned graph, for
the empty input, has no `semantic_similarity` edge at all. -/
theorem semantic_links_never_built :
    generateConsciousnessGraph sampleRest embedOne simOne 4 "t" emptyNet
      ([[], [], []] : List Item) = Except.error unpackErrorMsg ∧
    (generateConsciousnessGraph sampleRest embedOne simOne 4 "t" emptyNet
      []).toOption.map
        (fun g => g.1.edges.filter (fun e => e.kind == "semantic_similarity")) =
      some [] :=
  ⟨rfl, rfl⟩

/-- C8: the similarity query scores every node of the graph (excluding none),
returns `top_k` entries - fewer only when the graph has fewer nodes - sorted
by the ranking order (higher cosine score first, ties broken by earliest
insertion order), and every returned entry ranks at least as high as every
entry left out. -/
theorem query_similar_ranking (sim : List ℚ → List ℚ → ℚ) (net : Network)
    (q : List ℚ) (topK : ℕ) :
    (scoreNodes (sim q) net.nodes).map (fun sn => sn.node) = net.nodes ∧
    (querySimilarNodes sim net q topK).length = min topK net.nodes.length ∧
    List.Sorted simRel (querySimilarNodes sim net q topK) ∧
    (List.insertionSort simRel (scoreNodes (sim q) net.nodes)).Perm
      (scoreNodes (sim q) net.nodes) ∧
    ∀ a ∈ querySimilarNodes sim net q topK,
      ∀ b ∈ (List.insertionSort simRel (scoreNodes (sim q) net.nodes)).drop topK,
        simRel a b := by
  refine ⟨?_, ?_, ?_, List.perm_insertionSort simRel _, ?_⟩
  · have hcomp : ((fun sn => sn.node) ∘
        (fun p : ℕ × GraphNode => ScoredNode.mk p.2 p.1 (sim q p.2.embedding))) =
        fun p : ℕ × GraphNode => p.2 := rfl
    rw [scoreNodes, List.map_map, hcomp, List.enum_map_snd]
  · rw [querySimilarNodes, List.length_take,
      (List.perm_insertionSort simRel _).length_eq]
    simp [scoreNodes]
  · exact List.Pairwise.sublist (List.take_sublist _ _)
      (List.sorted_insertionSort simRel _)
  · intro a ha b hb
    have hs := List.sorted_insertionSort simRel (scoreNodes (sim q) net.nodes)
    rw [← List.take_append_drop topK
      (List.insertionSort simRel (scoreNodes (sim q) net.nodes))] at hs
    exact (List.pairwise_append.mp hs).2.2 a ha b hb

/-- Decoding inverts encoding, element by element, whatever is already
accumulated. -/
theorem mapM_loop_roundtrip {α β : Type} (f : α → β) (g : β → Option α)
    (h : ∀ a, g (f a) = some a) : ∀ (l : List α) (acc : List α),
    List.mapM.loop g (l.map f) acc = some (acc.reverse ++ l) := by
  intro l
  induction l with
  | nil => intro acc; simp [List.mapM.loop]
  | cons a rest ih =>
    intro acc
    simp [List.mapM.loop, h, ih (a :: acc)]

/-- Decoding inverts encoding, element by element. -/
theorem mapM_map_roundtrip {α β : Type} (f : α → β) (g : β → Option α)
    (h : ∀ a, g (f a) = some a) : ∀ l : List α, (l.map f).mapM g = some l := by
  intro l
  simpa [List.mapM] using mapM_loop_roundtrip f g h l []

/-- Natural-number ids survive the number encoding. -/
theorem jsonToNat_natCast (n : ℕ) : jsonToNat (Json.num (n : ℚ)) = some n := by
  simp [jsonToNat, jsonToNum, Rat.den_natCast, Rat.num_natCast,
    Int.toNat_natCast, Int.natCast_nonneg]

/-- A node survives the document round trip. -/
theorem nodeFromJson_nodeToJson (n : GraphNode) :
    nodeFromJson (nodeToJson n) = some n := by
  simp [nodeToJson, nodeFromJson, List.lookup, jsonToStr, jsonToNat_natCast,
    jsonList, mapM_loop_roundtrip Json.num jsonToNum (fun q => rfl)]

/-- An edge survives the document round trip. -/
theorem edgeFromJson_edgeToJson (e : GraphEdge) :
    edgeFromJson (edgeToJson e) = some e := by
  simp [edgeToJson, edgeFromJson, List.lookup, jsonToStr, jsonToNum,
    jsonToNat_natCast]

/-- C9: saving any builder state and loading the document into any builder
reproduces exactly the saved nodes and edges sequences, in order with the
same field values, and the loaded result does not depend on the state the
loading builder held before. -/
theorem save_load_roundtrip (net net0 net0' : Network) :
    loadFromFile net0 (saveToFile net) = some net ∧
    loadFromFile net0 (saveToFile net) = loadFromFile net0' (saveToFile net) := by
  refine ⟨?_, rfl⟩
  simp [saveToFile, loadFromFile, List.lookup, jsonList,
    mapM_loop_roundtrip nodeToJson nodeFromJson nodeFromJson_nodeToJson,
    mapM_loop_roundtrip edgeToJson edgeFromJson edgeFromJson_edgeToJson]

end Clippy
